import Mathlib

/-!
Verification of the dtx_to_wif draft-conversion core against its
natural-language specification.

The Python source is shallowly embedded:

* Python `str` values that flow through the format pipeline are modelled as
  `List Char` (`PyStr`), so that rendering/parsing can be reasoned about by
  structural induction.
* Python `dict[int, V]` is modelled as an insertion-ordered association list
  `List (Int × V)` (`Dict V`); `set[int]` as `Finset Int`.
* Python `float` is modelled as `Rat` (exact arithmetic); the `%0.3f`
  formatting used by the WIF writer is modelled as exact rounding to
  thousandths with round-half-to-even, matching CPython's formatting of
  exactly-representable values.
* Fallible code (`raise`) is modelled with `Except String`, the message
  identifying the Python error raised.
-/

instance {ε α : Type} [DecidableEq ε] [DecidableEq α] : DecidableEq (Except ε α)
  | .error e, .error f => decidable_of_iff (e = f) (by simp)
  | .error _, .ok _ => isFalse (by simp)
  | .ok _, .error _ => isFalse (by simp)
  | .ok a, .ok b => decidable_of_iff (a = b) (by simp)

/-- Python string, modelled as its character sequence. -/
abbrev PyStr := List Char

/-- Python `dict[int, V]`: an insertion-ordered association list. -/
abbrev Dict (V : Type) := List (Int × V)

/-- Values of a dict, in insertion order (`d.values()`). -/
def dictValues {V : Type} (d : Dict V) : List V := d.map (·.2)

/-- Keys of a dict, in insertion order (`d.keys()`). -/
def dictKeys {V : Type} (d : Dict V) : List Int := d.map (·.1)

/-- Python `max(xs)` over a list: `ValueError` on an empty sequence. -/
def listMaxE : List Int → Except String Int
  | [] => .error "ValueError: max() arg is an empty sequence"
  | x :: xs => .ok (xs.foldl max x)

/-- Python `sorted(s)` for a set of ints: the ascending list of elements.
Implemented with insertion sort over a representative list so that it
evaluates inside the kernel. -/
def finsetSorted (s : Finset Int) : List Int :=
  Quot.liftOn s.1 (fun l => l.insertionSort (· ≤ ·)) (fun _ _ h =>
    List.eq_of_perm_of_sorted
      ((List.perm_insertionSort _ _).trans (h.trans (List.perm_insertionSort _ _).symm))
      (List.sorted_insertionSort _ _) (List.sorted_insertionSort _ _))

/-- Python `max(s)` over a set of ints. -/
def finsetMaxE (s : Finset Int) : Except String Int :=
  listMaxE (finsetSorted s)

/-- Evaluate a fallible function over a list left to right, stopping at the
first error, as a Python comprehension does. -/
def mapExcept {α β : Type} (f : α → Except String β) : List α → Except String (List β)
  | [] => .ok []
  | x :: xs =>
    match f x with
    | .error e => .error e
    | .ok y =>
      match mapExcept f xs with
      | .error e => .error e
      | .ok ys => .ok (y :: ys)

/-- Python `max(max(v) for v in sets)`. -/
def maxOfSetsE (sets : List (Finset Int)) : Except String Int :=
  match mapExcept finsetMaxE sets with
  | .error e => .error e
  | .ok ms => listMaxE ms

/-- Python `min(xs)` over a list: `ValueError` on an empty sequence. -/
def listMinE : List Int → Except String Int
  | [] => .error "ValueError: min() arg is an empty sequence"
  | x :: xs => .ok (xs.foldl min x)

/-- Sort an association list by key, as Python `sorted(d)` does for the keys
of a dict (stable; for the duplicate-free key lists produced by Python dicts
this is exactly iteration in ascending key order). -/
def sortDict {V : Type} (d : Dict V) : Dict V :=
  d.insertionSort (fun a b => a.1 ≤ b.1)

/-- Model of `PatternData._clean_dict`: sort by keys and remove entries whose
value equals the given default (`none` models the `_MISSING_TYPE` sentinel,
which never compares equal to a value). -/
def cleanDict {V : Type} [DecidableEq V] (d : Dict V) (default : Option V) : Dict V :=
  (sortDict d).filter (fun kv =>
    match default with
    | some dv => kv.2 ≠ dv
    | none => true)

/-- Model of `PatternData._clean_ints_set_dict`: sort by keys and remove
entries whose value set, minus 0, is empty (Python `bool(data[key] - {0})`). -/
def cleanIntsSetDict (d : Dict (Finset Int)) : Dict (Finset Int) :=
  (sortDict d).filter (fun kv => kv.2.erase 0 ≠ ∅)

/-- Model of `TreadlingType` from pattern_data.py. -/
inductive TreadlingType where
  | SingleTreadle
  | MultiTreadle
  | Liftplan
deriving DecidableEq

/-- Model of `WarpWeftData` from pattern_data.py. -/
structure WarpWeftData where
  threads : Int := 0
  color : Option Int := none
  color_rgb : Option (Int × Int × Int) := none
  spacing : Option Rat := none
  thickness : Option Rat := none
  units : Option PyStr := none
deriving DecidableEq

/-- Model of `PatternData` from pattern_data.py.  The field `treadling_type`
is not a dataclass field in the source; it is an attribute assigned during
`__post_init__`, hence modelled as an `Option` defaulting to `none`.
`color_range` is a Python tuple of unconstrained length, modelled as a list. -/
structure PatternData where
  name : PyStr
  threading : Dict (Finset Int)
  tieup : Dict (Finset Int)
  treadling : Dict (Finset Int)
  liftplan : Dict (Finset Int)
  color_table : Dict (Int × Int × Int)
  warp : WarpWeftData
  weft : WarpWeftData
  warp_colors : Dict Int := []
  warp_spacing : Dict Rat := []
  warp_thickness : Dict Rat := []
  weft_colors : Dict Int := []
  weft_spacing : Dict Rat := []
  weft_thickness : Dict Rat := []
  color_range : Option (List Int) := none
  is_rising_shed : Bool := true
  source_program : PyStr := ['?']
  source_version : PyStr := ['?']
  num_shafts : Int := 0
  num_treadles : Int := 0
  treadling_type : Option TreadlingType := none
deriving DecidableEq

/-- The fields of `PatternData` computed or rewritten by `__post_init__`. -/
structure Derived where
  threading : Dict (Finset Int)
  tieup : Dict (Finset Int)
  treadling : Dict (Finset Int)
  liftplan : Dict (Finset Int)
  color_table : Dict (Int × Int × Int)
  warp_colors : Dict Int
  warp_spacing : Dict Rat
  warp_thickness : Dict Rat
  weft_colors : Dict Int
  weft_spacing : Dict Rat
  weft_thickness : Dict Rat
  warpThreads : Int
  weftThreads : Int
  numShafts : Int
  numTreadles : Int
  treadlingType : TreadlingType
deriving DecidableEq

/-- Error message of the color-pairing check (pattern_data.py lines 149-153). -/
def errColorsNoTable : String := "warp and/or weft colors specified, but not color table"

/-- Error message of the treadle-count check (pattern_data.py lines 211-215). -/
def errCountMismatch : String := "Found more treadles in treadling than in tieup"

/-- Error message of the structural check (pattern_data.py lines 228-231). -/
def errStructural : String := "Must specify non-empty liftplan, or both tieup and treadling"

/-- Error message when a color table is given without a color range. -/
def errTableNoRange : String := "color table specified, but not color range"

/-- Model of pattern_data.py lines 199-215 wrapped in the branch selection of
lines 189-231: derive `num_shafts`, `num_treadles`, `weft.threads` and the
treadling type from the cleaned tieup/treadling/liftplan dicts. -/
def deriveBranch (tieup treadling liftplan : Dict (Finset Int))
    (numShafts0 pNumTreadles pWeftThreads : Int) :
    Except String (Int × Int × Int × TreadlingType) :=
  if tieup ≠ [] ∧ treadling ≠ [] then
    -- There may be shafts in the tieup that were not threaded
    match listMaxE ((dictValues tieup).map (fun s => (s.card : Int))) with
    | .error e => .error e
    | .ok maxShaftsInLiftplanInTieup =>
      let numShafts := max maxShaftsInLiftplanInTieup numShafts0
      let numTreadles := max (tieup.length : Int) pNumTreadles
      match listMaxE ((dictValues treadling).map (fun s => (s.card : Int))) with
      | .error e => .error e
      | .ok maxNumTreadlesPerPick =>
        let tt := if maxNumTreadlesPerPick = 1 then TreadlingType.SingleTreadle
          else TreadlingType.MultiTreadle
        let weftThreads := max (treadling.length : Int) pWeftThreads
        match maxOfSetsE (dictValues treadling) with
        | .error e => .error e
        | .ok maxTreadleIndFromTreadling =>
          if numTreadles < maxTreadleIndFromTreadling then
            .error errCountMismatch
          else
            .ok (numShafts, numTreadles, weftThreads, tt)
  else if liftplan ≠ [] then
    -- There may be shafts in the liftplan that were not in the tieup
    match maxOfSetsE (dictValues liftplan) with
    | .error e => .error e
    | .ok maxShaftsInLiftplan =>
      let numShafts := max maxShaftsInLiftplan numShafts0
      .ok (numShafts, max numShafts pNumTreadles,
        max (liftplan.length : Int) pWeftThreads, TreadlingType.Liftplan)
  else
    .error errStructural

/-- Model of pattern_data.py lines 255-264: check every channel of every
color-table entry against the color range. -/
def checkColorTableEntries (entries : Dict (Int × Int × Int)) (crMin crMax : Int) :
    Except String Unit :=
  match entries with
  | [] => .ok ()
  | kv :: rest =>
    if min kv.2.1 (min kv.2.2.1 kv.2.2.2) < crMin
        ∨ max kv.2.1 (max kv.2.2.1 kv.2.2.2) > crMax then
      .error "color table entry invalid: one or more values not in range"
    else checkColorTableEntries rest crMin crMax

/-- Model of pattern_data.py lines 233-264: color table vs. color range
presence, range shape, key contiguity and channel bounds, in source order. -/
def checkColorRangeBlock (color_table : Dict (Int × Int × Int))
    (colorRange : Option (List Int)) : Except String Unit :=
  if color_table ≠ [] ∧ colorRange = none then
    .error errTableNoRange
  else
    match colorRange with
    | none => .ok ()
    | some cr =>
      match cr with
      | [crMin, crMax] =>
        if crMin ≥ crMax then
          .error "Invalid color range; min must be less than max"
        else if color_table ≠ [] then
          if dictKeys color_table ≠ (List.range' 1 color_table.length).map Int.ofNat then
            .error "Color table keys not a contiguous 1-based sequence"
          else checkColorTableEntries color_table crMin crMax
        else .ok ()
      | _ => .error "Invalid color range; must be two values"

/-- Model of pattern_data.py lines 270-279: bounds of per-thread colors of one
axis against the color-table size. -/
def checkWwColors (colors : Dict Int) (maxColorInTable : Int) (axis : String) :
    Except String Unit :=
  if colors ≠ [] then
    match listMaxE (dictValues colors) with
    | .error e => .error e
    | .ok mx =>
      if mx > maxColorInTable then
        .error (axis ++ "_colors invalid: one or more colors above color table size")
      else
        match listMinE (dictValues colors) with
        | .error e => .error e
        | .ok mn =>
          if mn < 1 then
            .error (axis ++ "_colors invalid: one or more colors below 1")
          else .ok ()
  else .ok ()

/-- Model of pattern_data.py lines 281-285: bounds of the default color index
of one axis. -/
def checkWwDefaultColor (c : Option Int) (maxColorInTable : Int) (axis : String) :
    Except String Unit :=
  match c with
  | some c =>
    if c < 1 ∨ c > maxColorInTable then
      .error (axis ++ ".color not in range")
    else .ok ()
  | none => .ok ()

/-- Model of the computational content of `PatternData.__post_init__`
(pattern_data.py lines 146-299), in source order.  It reads every field of
the raw record except `name`, `source_program`, `source_version` and
`treadling_type`, and returns the derived field values or the first error
raised. -/
def derive (p : PatternData) : Except String Derived :=
  -- Test for missing color table before cleaning warp and weft colors
  if (p.warp_colors ≠ [] ∨ p.weft_colors ≠ []) ∧ p.color_table = [] then
    .error errColorsNoTable
  else
  -- Clean up warp/weft colors, spacing, and thickness dicts
  let warp_colors := cleanDict p.warp_colors p.warp.color
  let warp_spacing := cleanDict p.warp_spacing p.warp.spacing
  let warp_thickness := cleanDict p.warp_thickness p.warp.thickness
  let weft_colors := cleanDict p.weft_colors p.weft.color
  let weft_spacing := cleanDict p.weft_spacing p.weft.spacing
  let weft_thickness := cleanDict p.weft_thickness p.weft.thickness
  -- Clean up the threading, tieup, treadling, and liftplan dicts
  let threading := cleanIntsSetDict p.threading
  let tieup := cleanIntsSetDict p.tieup
  let treadling := cleanIntsSetDict p.treadling
  let liftplan := cleanIntsSetDict p.liftplan
  -- Clean up the color_table, which has no default values
  let color_table := cleanDict p.color_table none
  let warpThreads := max (threading.length : Int) p.warp.threads
  -- Preliminary estimate
  match maxOfSetsE (dictValues threading) with
  | .error e => .error e
  | .ok maxShaftInThreading =>
  let numShafts0 := max maxShaftInThreading p.num_shafts
  -- Favor tieup + treadling over liftplan
  match deriveBranch tieup treadling liftplan numShafts0 p.num_treadles p.weft.threads with
  | .error e => .error e
  | .ok (numShafts, numTreadles, weftThreads, treadlingType) =>
  match checkColorRangeBlock color_table p.color_range with
  | .error e => .error e
  | .ok _ =>
  -- Check that all color values are in range
  match listMaxE (dictKeys color_table) with
  | .error e => .error e
  | .ok maxColorInTable =>
  match checkWwColors warp_colors maxColorInTable "warp" with
  | .error e => .error e
  | .ok _ =>
  match checkWwDefaultColor p.warp.color maxColorInTable "warp" with
  | .error e => .error e
  | .ok _ =>
  match checkWwColors weft_colors maxColorInTable "weft" with
  | .error e => .error e
  | .ok _ =>
  match checkWwDefaultColor p.weft.color maxColorInTable "weft" with
  | .error e => .error e
  | .ok _ =>
  Except.ok {
    threading := threading
    tieup := tieup
    treadling := treadling
    liftplan := liftplan
    color_table := color_table
    warp_colors := warp_colors
    warp_spacing := warp_spacing
    warp_thickness := warp_thickness
    weft_colors := weft_colors
    weft_spacing := weft_spacing
    weft_thickness := weft_thickness
    warpThreads := warpThreads
    weftThreads := weftThreads
    numShafts := numShafts
    numTreadles := numTreadles
    treadlingType := treadlingType }

/-- Install the derived fields into the record, as `__post_init__` mutates
`self` in place.  The `name`, `source_program`, `source_version` and
remaining warp/weft spec fields pass through unchanged. -/
def assemble (p : PatternData) (dv : Derived) : PatternData :=
  { p with
    threading := dv.threading
    tieup := dv.tieup
    treadling := dv.treadling
    liftplan := dv.liftplan
    color_table := dv.color_table
    warp_colors := dv.warp_colors
    warp_spacing := dv.warp_spacing
    warp_thickness := dv.warp_thickness
    weft_colors := dv.weft_colors
    weft_spacing := dv.weft_spacing
    weft_thickness := dv.weft_thickness
    warp := { p.warp with threads := dv.warpThreads }
    weft := { p.weft with threads := dv.weftThreads }
    num_shafts := dv.numShafts
    num_treadles := dv.numTreadles
    treadling_type := some dv.treadlingType }

/-- Model of `PatternData.__post_init__`: full construction of a `PatternData`
value from raw field values, returning the normalized record or the first
error raised. -/
def postInit (p : PatternData) : Except String PatternData :=
  (derive p).map (assemble p)

example :
    postInit
      { name := []
        threading := [(1, {2}), (2, {3})]
        tieup := []
        treadling := []
        liftplan := [(1, {1, 3})]
        color_table := [(1, (0, 0, 0))]
        warp := {}
        weft := {}
        color_range := some [0, 255] } =
    Except.ok
      { name := []
        threading := [(1, {2}), (2, {3})]
        tieup := []
        treadling := []
        liftplan := [(1, {1, 3})]
        color_table := [(1, (0, 0, 0))]
        warp := { threads := 2 }
        weft := { threads := 1 }
        color_range := some [0, 255]
        num_shafts := 3
        num_treadles := 3
        treadling_type := some TreadlingType.Liftplan } := by
  decide

/-! ### Helper lemmas about the executable primitives -/

theorem coe_finsetSorted (s : Finset Int) : (finsetSorted s : Multiset Int) = s.1 := by
  rcases s with ⟨m, nd⟩
  revert nd
  refine Quot.inductionOn m ?_
  intro l nd
  exact Multiset.coe_eq_coe.mpr (List.perm_insertionSort _ _)

theorem mem_finsetSorted (s : Finset Int) (a : Int) : a ∈ finsetSorted s ↔ a ∈ s := by
  rw [← Multiset.mem_coe, coe_finsetSorted, ← Finset.mem_def]

theorem finsetSorted_eq_nil (s : Finset Int) : finsetSorted s = [] ↔ s = ∅ := by
  constructor
  · intro h
    have hc := coe_finsetSorted s
    rw [h] at hc
    exact Finset.val_eq_zero.mp (by simpa using hc.symm)
  · intro h
    subst h
    rfl

theorem finsetSorted_sorted (s : Finset Int) : List.Sorted (· ≤ ·) (finsetSorted s) := by
  rcases s with ⟨m, nd⟩
  revert nd
  refine Quot.inductionOn m ?_
  intro l _
  exact List.sorted_insertionSort _ _

theorem le_foldl_max (xs : List Int) (x : Int) : x ≤ xs.foldl max x := by
  induction xs generalizing x with
  | nil => exact le_refl x
  | cons y ys ih => exact le_trans (le_max_left x y) (ih (max x y))

theorem mem_le_foldl_max (xs : List Int) (x y : Int) (h : y ∈ xs) : y ≤ xs.foldl max x := by
  induction xs generalizing x with
  | nil => cases h
  | cons z zs ih =>
    rcases List.mem_cons.mp h with rfl | hz
    · exact le_trans (le_max_right x y) (le_foldl_max zs _)
    · exact ih _ hz

theorem foldl_max_mem (xs : List Int) (x : Int) : xs.foldl max x = x ∨ xs.foldl max x ∈ xs := by
  induction xs generalizing x with
  | nil => exact Or.inl rfl
  | cons y ys ih =>
    rcases ih (max x y) with h | h
    · rcases max_cases x y with ⟨h1, _⟩ | ⟨h1, _⟩
      · exact Or.inl (by rw [List.foldl_cons, h, h1])
      · refine Or.inr ?_
        rw [List.foldl_cons, h, h1]
        exact List.mem_cons_self _ _
    · exact Or.inr (List.mem_cons_of_mem _ h)

theorem listMaxE_spec {l : List Int} {m : Int} (h : listMaxE l = .ok m) :
    m ∈ l ∧ ∀ x ∈ l, x ≤ m := by
  cases l with
  | nil => simp [listMaxE] at h
  | cons x xs =>
    have hm : xs.foldl max x = m := by
      have := h
      unfold listMaxE at this
      exact Except.ok.inj this
    subst hm
    refine ⟨?_, ?_⟩
    · rcases foldl_max_mem xs x with h1 | h1
      · rw [h1]; exact List.mem_cons_self _ _
      · exact List.mem_cons_of_mem _ h1
    · intro y hy
      rcases List.mem_cons.mp hy with rfl | hy
      · exact le_foldl_max xs y
      · exact mem_le_foldl_max xs x y hy

theorem listMaxE_ok {l : List Int} (h : l ≠ []) : ∃ m, listMaxE l = .ok m := by
  cases l with
  | nil => exact absurd rfl h
  | cons x xs => exact ⟨_, rfl⟩

theorem listMaxE_ok_ne_nil {l : List Int} {m : Int} (h : listMaxE l = .ok m) : l ≠ [] := by
  intro hl
  subst hl
  simp [listMaxE] at h

theorem finsetMaxE_spec {s : Finset Int} {m : Int} (h : finsetMaxE s = .ok m) :
    m ∈ s ∧ ∀ x ∈ s, x ≤ m := by
  unfold finsetMaxE at h
  obtain ⟨hm, hle⟩ := listMaxE_spec h
  exact ⟨(mem_finsetSorted s m).mp hm, fun x hx => hle x ((mem_finsetSorted s x).mpr hx)⟩

theorem finsetMaxE_ok {s : Finset Int} (h : s ≠ ∅) : ∃ m, finsetMaxE s = .ok m := by
  apply listMaxE_ok
  rw [Ne, finsetSorted_eq_nil]
  exact h

theorem mapExcept_ok_iff {α β : Type} {f : α → Except String β} {l : List α} {ys : List β} :
    mapExcept f l = .ok ys ↔ List.Forall₂ (fun a b => f a = .ok b) l ys := by
  induction l generalizing ys with
  | nil =>
    cases ys with
    | nil => simp [mapExcept]
    | cons y ys => simp [mapExcept]
  | cons x xs ih =>
    constructor
    · intro h
      unfold mapExcept at h
      cases hfx : f x with
      | error e => rw [hfx] at h; cases h
      | ok y =>
        rw [hfx] at h
        cases hrest : mapExcept f xs with
        | error e => rw [hrest] at h; cases h
        | ok ys' =>
          rw [hrest] at h
          cases h
          exact List.Forall₂.cons hfx (ih.mp hrest)
    · intro h
      cases h with
      | cons hfx hrest =>
        unfold mapExcept
        rw [hfx, ih.mpr hrest]

theorem forall₂_exists_left {α β : Type} {R : α → β → Prop} {l : List α} {l' : List β}
    (h : List.Forall₂ R l l') {b : β} (hb : b ∈ l') : ∃ a ∈ l, R a b := by
  induction h with
  | nil => cases hb
  | cons hR _ ih =>
    rcases List.mem_cons.mp hb with rfl | hb'
    · exact ⟨_, List.mem_cons_self _ _, hR⟩
    · obtain ⟨a, ha, hab⟩ := ih hb'
      exact ⟨a, List.mem_cons_of_mem _ ha, hab⟩

theorem forall₂_exists_right {α β : Type} {R : α → β → Prop} {l : List α} {l' : List β}
    (h : List.Forall₂ R l l') {a : α} (ha : a ∈ l) : ∃ b ∈ l', R a b := by
  induction h with
  | nil => cases ha
  | cons hR _ ih =>
    rcases List.mem_cons.mp ha with rfl | ha'
    · exact ⟨_, List.mem_cons_self _ _, hR⟩
    · obtain ⟨b, hb, hab⟩ := ih ha'
      exact ⟨b, List.mem_cons_of_mem _ hb, hab⟩

theorem maxOfSetsE_spec {sets : List (Finset Int)} {m : Int} (h : maxOfSetsE sets = .ok m) :
    (∃ s ∈ sets, m ∈ s) ∧ ∀ s ∈ sets, ∀ x ∈ s, x ≤ m := by
  unfold maxOfSetsE at h
  cases hms : mapExcept finsetMaxE sets with
  | error e => rw [hms] at h; cases h
  | ok ms =>
    rw [hms] at h
    obtain ⟨hmem, hle⟩ := listMaxE_spec h
    have hf2 := mapExcept_ok_iff.mp hms
    refine ⟨?_, ?_⟩
    · obtain ⟨s, hs, hfs⟩ := forall₂_exists_left hf2 hmem
      exact ⟨s, hs, (finsetMaxE_spec hfs).1⟩
    · intro s hs x hx
      obtain ⟨y, hy, hfy⟩ := forall₂_exists_right hf2 hs
      exact le_trans ((finsetMaxE_spec hfy).2 x hx) (hle y hy)

theorem mapExcept_ok_of_all {α β : Type} {f : α → Except String β} {l : List α}
    (h : ∀ a ∈ l, ∃ b, f a = .ok b) :
    ∃ ys, mapExcept f l = .ok ys ∧ ys.length = l.length := by
  induction l with
  | nil => exact ⟨[], rfl, rfl⟩
  | cons x xs ih =>
    obtain ⟨y, hy⟩ := h x (List.mem_cons_self _ _)
    obtain ⟨ys, hys, hlen⟩ := ih (fun a ha => h a (List.mem_cons_of_mem _ ha))
    refine ⟨y :: ys, ?_, by simp [hlen]⟩
    unfold mapExcept
    rw [hy, hys]

theorem maxOfSetsE_ok {sets : List (Finset Int)} (h1 : sets ≠ [])
    (h2 : ∀ s ∈ sets, s ≠ ∅) : ∃ m, maxOfSetsE sets = .ok m := by
  unfold maxOfSetsE
  obtain ⟨ms, hms, hlen⟩ := mapExcept_ok_of_all (fun s hs => finsetMaxE_ok (h2 s hs))
  rw [hms]
  apply listMaxE_ok
  intro hnil
  apply h1
  rw [hnil] at hlen
  exact List.length_eq_zero.mp hlen.symm

/-! ### Inversion and introduction principles for `derive` -/

theorem derive_ok_inv {p : PatternData} {dv : Derived} (h : derive p = .ok dv) :
    ¬((p.warp_colors ≠ [] ∨ p.weft_colors ≠ []) ∧ p.color_table = [])
    ∧ dv.threading = cleanIntsSetDict p.threading
    ∧ dv.tieup = cleanIntsSetDict p.tieup
    ∧ dv.treadling = cleanIntsSetDict p.treadling
    ∧ dv.liftplan = cleanIntsSetDict p.liftplan
    ∧ dv.color_table = cleanDict p.color_table none
    ∧ dv.warp_colors = cleanDict p.warp_colors p.warp.color
    ∧ dv.warp_spacing = cleanDict p.warp_spacing p.warp.spacing
    ∧ dv.warp_thickness = cleanDict p.warp_thickness p.warp.thickness
    ∧ dv.weft_colors = cleanDict p.weft_colors p.weft.color
    ∧ dv.weft_spacing = cleanDict p.weft_spacing p.weft.spacing
    ∧ dv.weft_thickness = cleanDict p.weft_thickness p.weft.thickness
    ∧ dv.warpThreads = max (dv.threading.length : Int) p.warp.threads
    ∧ (∃ mT, maxOfSetsE (dictValues dv.threading) = .ok mT
        ∧ deriveBranch dv.tieup dv.treadling dv.liftplan (max mT p.num_shafts)
            p.num_treadles p.weft.threads
          = .ok (dv.numShafts, dv.numTreadles, dv.weftThreads, dv.treadlingType))
    ∧ checkColorRangeBlock dv.color_table p.color_range = .ok ()
    ∧ (∃ mC, listMaxE (dictKeys dv.color_table) = .ok mC
        ∧ checkWwColors dv.warp_colors mC "warp" = .ok ()
        ∧ checkWwDefaultColor p.warp.color mC "warp" = .ok ()
        ∧ checkWwColors dv.weft_colors mC "weft" = .ok ()
        ∧ checkWwDefaultColor p.weft.color mC "weft" = .ok ()) := by
  unfold derive at h
  by_cases hpair : ((p.warp_colors ≠ [] ∨ p.weft_colors ≠ []) ∧ p.color_table = [])
  · rw [if_pos hpair] at h
    cases h
  · rw [if_neg hpair] at h
    simp only [] at h
    repeat' first
    | (cases h)
    | (split at h)
    all_goals
      exact ⟨hpair, rfl, rfl, rfl, rfl, rfl, rfl, rfl, rfl, rfl, rfl, rfl, rfl,
        ⟨_, by assumption, by assumption⟩, by assumption,
        ⟨_, by assumption, by assumption, by assumption, by assumption, by assumption⟩⟩

theorem derive_ok_intro {p : PatternData} {dv : Derived} {mT mC : Int}
    (hpair : ¬((p.warp_colors ≠ [] ∨ p.weft_colors ≠ []) ∧ p.color_table = []))
    (h1 : cleanIntsSetDict p.threading = dv.threading)
    (h2 : cleanIntsSetDict p.tieup = dv.tieup)
    (h3 : cleanIntsSetDict p.treadling = dv.treadling)
    (h4 : cleanIntsSetDict p.liftplan = dv.liftplan)
    (h5 : cleanDict p.color_table none = dv.color_table)
    (h6 : cleanDict p.warp_colors p.warp.color = dv.warp_colors)
    (h7 : cleanDict p.warp_spacing p.warp.spacing = dv.warp_spacing)
    (h8 : cleanDict p.warp_thickness p.warp.thickness = dv.warp_thickness)
    (h9 : cleanDict p.weft_colors p.weft.color = dv.weft_colors)
    (h10 : cleanDict p.weft_spacing p.weft.spacing = dv.weft_spacing)
    (h11 : cleanDict p.weft_thickness p.weft.thickness = dv.weft_thickness)
    (h12 : max ((dv.threading).length : Int) p.warp.threads = dv.warpThreads)
    (hmT : maxOfSetsE (dictValues dv.threading) = .ok mT)
    (hbr : deriveBranch dv.tieup dv.treadling dv.liftplan (max mT p.num_shafts)
        p.num_treadles p.weft.threads
      = .ok (dv.numShafts, dv.numTreadles, dv.weftThreads, dv.treadlingType))
    (hcr : checkColorRangeBlock dv.color_table p.color_range = .ok ())
    (hmC : listMaxE (dictKeys dv.color_table) = .ok mC)
    (hw1 : checkWwColors dv.warp_colors mC "warp" = .ok ())
    (hw2 : checkWwDefaultColor p.warp.color mC "warp" = .ok ())
    (hw3 : checkWwColors dv.weft_colors mC "weft" = .ok ())
    (hw4 : checkWwDefaultColor p.weft.color mC "weft" = .ok ()) :
    derive p = .ok dv := by
  unfold derive
  rw [if_neg hpair]
  simp only [h1, h2, h3, h4, h5, h6, h7, h8, h9, h10, h11, hmT, hbr, hcr, hmC,
    hw1, hw2, hw3, hw4, h12]

theorem deriveBranch_numShafts0_le {t r l : Dict (Finset Int)}
    {n0 pt wt ns nt wt' : Int} {tt : TreadlingType}
    (h : deriveBranch t r l n0 pt wt = .ok (ns, nt, wt', tt)) : n0 ≤ ns := by
  unfold deriveBranch at h
  simp only [] at h
  split at h
  · split at h
    · cases h
    rename_i mlt hmlt
    split at h
    · cases h
    rename_i mpp hmpp
    split at h
    · cases h
    rename_i mtr hmtr
    split at h
    · cases h
    rename_i hguard
    cases h
    exact le_max_right _ _
  · split at h
    · split at h
      · cases h
      rename_i mlp hmlp
      cases h
      exact le_max_right _ _
    · cases h

theorem deriveBranch_rerun {t r l : Dict (Finset Int)}
    {n0 pt wt ns nt wt' : Int} {tt : TreadlingType}
    (h : deriveBranch t r l n0 pt wt = .ok (ns, nt, wt', tt)) :
    deriveBranch t r l ns nt wt' = .ok (ns, nt, wt', tt) := by
  unfold deriveBranch at h ⊢
  simp only [] at h
  split at h
  · rename_i hne
    rw [if_pos hne]
    split at h
    · cases h
    rename_i mlt hmlt
    split at h
    · cases h
    rename_i mpp hmpp
    split at h
    · cases h
    rename_i mtr hmtr
    split at h
    · cases h
    rename_i hguard
    cases h
    simp only [hmlt, hmpp, hmtr, ← max_assoc, max_self, if_neg hguard]
  · rename_i hne
    rw [if_neg hne]
    split at h
    · rename_i hlp
      rw [if_pos hlp]
      split at h
      · cases h
      rename_i mlp hmlp
      cases h
      simp only [hmlp, ← max_assoc, max_self]
    · cases h

theorem sortDict_of_sorted {V : Type} {d : Dict V}
    (h : List.Sorted (fun a b : Int × V => a.1 ≤ b.1) d) : sortDict d = d :=
  List.Sorted.insertionSort_eq h

theorem sortDict_sorted {V : Type} (d : Dict V) :
    List.Sorted (fun a b : Int × V => a.1 ≤ b.1) (sortDict d) := by
  have : IsTotal (Int × V) (fun a b : Int × V => a.1 ≤ b.1) :=
    ⟨fun a b => le_total a.1 b.1⟩
  have : IsTrans (Int × V) (fun a b : Int × V => a.1 ≤ b.1) :=
    ⟨fun _ _ _ hab hbc => le_trans hab hbc⟩
  exact List.sorted_insertionSort _ _

theorem cleanDict_idem {V : Type} [DecidableEq V] (d : Dict V) (dft : Option V) :
    cleanDict (cleanDict d dft) dft = cleanDict d dft := by
  unfold cleanDict
  rw [sortDict_of_sorted ((sortDict_sorted d).sublist (List.filter_sublist _)),
    List.filter_filter]
  simp only [Bool.and_self]

theorem cleanIntsSetDict_idem (d : Dict (Finset Int)) :
    cleanIntsSetDict (cleanIntsSetDict d) = cleanIntsSetDict d := by
  unfold cleanIntsSetDict
  rw [sortDict_of_sorted ((sortDict_sorted d).sublist (List.filter_sublist _)),
    List.filter_filter]
  simp only [Bool.and_self]

theorem assemble_assemble (p : PatternData) (dv : Derived) :
    assemble (assemble p dv) dv = assemble p dv := rfl

theorem postInit_idem {p d : PatternData} (h : postInit p = .ok d) :
    postInit d = .ok d := by
  unfold postInit at h ⊢
  cases hd : derive p with
  | error e => rw [hd] at h; cases h
  | ok dv =>
    rw [hd] at h
    simp only [Except.map] at h
    cases h
    obtain ⟨hpair, e1, e2, e3, e4, e5, e6, e7, e8, e9, e10, e11, e12,
      ⟨mT, hmT, hbr⟩, hcr, ⟨mC, hmC, hw1, hw2, hw3, hw4⟩⟩ := derive_ok_inv hd
    have hctne : dv.color_table ≠ [] := by
      intro hempty
      apply listMaxE_ok_ne_nil hmC
      rw [hempty]
      rfl
    have hderive : derive (assemble p dv) = .ok dv := by
      refine @derive_ok_intro _ _ mT mC ?_ ?_ ?_ ?_ ?_ ?_ ?_ ?_ ?_ ?_ ?_ ?_ ?_
        hmT ?_ ?_ hmC hw1 hw2 hw3 hw4
      · show ¬((dv.warp_colors ≠ [] ∨ dv.weft_colors ≠ []) ∧ dv.color_table = [])
        intro hc
        exact hctne hc.2
      · show cleanIntsSetDict dv.threading = dv.threading
        rw [e1, cleanIntsSetDict_idem]
      · show cleanIntsSetDict dv.tieup = dv.tieup
        rw [e2, cleanIntsSetDict_idem]
      · show cleanIntsSetDict dv.treadling = dv.treadling
        rw [e3, cleanIntsSetDict_idem]
      · show cleanIntsSetDict dv.liftplan = dv.liftplan
        rw [e4, cleanIntsSetDict_idem]
      · show cleanDict dv.color_table none = dv.color_table
        rw [e5, cleanDict_idem]
      · show cleanDict dv.warp_colors p.warp.color = dv.warp_colors
        rw [e6, cleanDict_idem]
      · show cleanDict dv.warp_spacing p.warp.spacing = dv.warp_spacing
        rw [e7, cleanDict_idem]
      · show cleanDict dv.warp_thickness p.warp.thickness = dv.warp_thickness
        rw [e8, cleanDict_idem]
      · show cleanDict dv.weft_colors p.weft.color = dv.weft_colors
        rw [e9, cleanDict_idem]
      · show cleanDict dv.weft_spacing p.weft.spacing = dv.weft_spacing
        rw [e10, cleanDict_idem]
      · show cleanDict dv.weft_thickness p.weft.thickness = dv.weft_thickness
        rw [e11, cleanDict_idem]
      · show max ((dv.threading).length : Int) dv.warpThreads = dv.warpThreads
        exact max_eq_right (e12 ▸ le_max_left _ _)
      · show deriveBranch dv.tieup dv.treadling dv.liftplan (max mT dv.numShafts)
            dv.numTreadles dv.weftThreads
          = .ok (dv.numShafts, dv.numTreadles, dv.weftThreads, dv.treadlingType)
        have hle : mT ≤ dv.numShafts :=
          le_trans (le_max_left _ _) (deriveBranch_numShafts0_le hbr)
        rw [max_eq_right hle]
        exact deriveBranch_rerun hbr
      · show checkColorRangeBlock dv.color_table p.color_range = .ok ()
        exact hcr
    rw [hderive]
    rfl

theorem cleanIntsSetDict_value_ne {d : Dict (Finset Int)} {kv : Int × Finset Int}
    (h : kv ∈ cleanIntsSetDict d) : kv.2 ≠ ∅ := by
  unfold cleanIntsSetDict at h
  have hp := List.of_mem_filter h
  intro hc
  rw [decide_eq_true_iff] at hp
  apply hp
  rw [hc]
  rfl

theorem maxOfSetsE_clean_ok {d : Dict (Finset Int)} (h : cleanIntsSetDict d ≠ []) :
    ∃ m, maxOfSetsE (dictValues (cleanIntsSetDict d)) = .ok m := by
  apply maxOfSetsE_ok
  · intro hc
    apply h
    unfold dictValues at hc
    exact List.map_eq_nil_iff.mp hc
  · intro s hs
    obtain ⟨kv, hkv, hsnd⟩ := List.mem_map.mp hs
    rw [← hsnd]
    exact cleanIntsSetDict_value_ne hkv

theorem deriveBranch_count_error {t r l : Dict (Finset Int)} {n0 pnt wt mt : Int}
    (h1 : t ≠ []) (h2 : r ≠ [])
    (hmt : maxOfSetsE (dictValues r) = .ok mt)
    (hgt : max (t.length : Int) pnt < mt) :
    deriveBranch t r l n0 pnt wt = .error errCountMismatch := by
  unfold deriveBranch
  rw [if_pos ⟨h1, h2⟩]
  obtain ⟨mlt, hmlt⟩ := @listMaxE_ok ((dictValues t).map (fun s => (s.card : Int)))
    (by simp [dictValues, h1])
  obtain ⟨mpp, hmpp⟩ := @listMaxE_ok ((dictValues r).map (fun s => (s.card : Int)))
    (by simp [dictValues, h2])
  simp only [hmlt, hmpp, hmt, if_pos hgt]

/-! ### Sample drafts used by claim witnesses and counterexamples -/

/-- Raw draft of spec Scenario A, extended with a minimal color table and two
warp colors. -/
def sampleLiftplanRaw : PatternData :=
  { name := []
    threading := [(1, {2}), (2, {3})]
    tieup := []
    treadling := []
    liftplan := [(1, {1, 3})]
    color_table := [(1, (0, 0, 0))]
    warp := {}
    weft := {}
    warp_colors := [(1, 1), (2, 1)]
    color_range := some [0, 255] }

/-- Normalized form of `sampleLiftplanRaw`. -/
def sampleLiftplanNorm : PatternData :=
  { name := []
    threading := [(1, {2}), (2, {3})]
    tieup := []
    treadling := []
    liftplan := [(1, {1, 3})]
    color_table := [(1, (0, 0, 0))]
    warp := { threads := 2 }
    weft := { threads := 1 }
    warp_colors := [(1, 1), (2, 1)]
    color_range := some [0, 255]
    num_shafts := 3
    num_treadles := 3
    treadling_type := some TreadlingType.Liftplan }

/-- Raw draft whose tieup references shaft 7 on treadle 2 while threading
only uses shaft 1. -/
def sampleTieupIndexRaw : PatternData :=
  { name := []
    threading := [(1, {1})]
    tieup := [(2, {7})]
    treadling := [(1, {1})]
    liftplan := []
    color_table := [(1, (0, 0, 0))]
    warp := {}
    weft := {}
    color_range := some [0, 255] }

/-- Value produced by normalizing `sampleTieupIndexRaw`: both loom-size
fields come out as 1. -/
def sampleTieupIndexNorm : PatternData :=
  { name := []
    threading := [(1, {1})]
    tieup := [(2, {7})]
    treadling := [(1, {1})]
    liftplan := []
    color_table := [(1, (0, 0, 0))]
    warp := { threads := 1 }
    weft := { threads := 1 }
    color_range := some [0, 255]
    num_shafts := 1
    num_treadles := 1
    treadling_type := some TreadlingType.SingleTreadle }

/-- Spec Scenario C: treadling references treadle 5, tieup defines
treadles 1 through 4. -/
def sampleScenarioC : PatternData :=
  { name := []
    threading := [(1, {1})]
    tieup := [(1, {1}), (2, {2}), (3, {3}), (4, {1, 2})]
    treadling := [(1, {5})]
    liftplan := []
    color_table := [(1, (0, 0, 0))]
    warp := {}
    weft := {}
    color_range := some [0, 255] }

/-- Input violating both the structural invariant and the color-pairing
invariant: warp colors without a color table, and no
liftplan/tieup/treadling. -/
def samplePairingAndStructural : PatternData :=
  { name := []
    threading := []
    tieup := []
    treadling := []
    liftplan := []
    color_table := []
    warp := {}
    weft := {}
    warp_colors := [(1, 1)] }

/-- Structurally valid input with weft colors but no color table. -/
def samplePairingOnly : PatternData :=
  { name := []
    threading := [(1, {1})]
    tieup := []
    treadling := []
    liftplan := [(1, {1})]
    color_table := []
    warp := {}
    weft := {}
    weft_colors := [(1, 2)] }

/-- Structurally valid input with no colors, no color range and an empty
color table. -/
def sampleEmptyTable : PatternData :=
  { name := []
    threading := [(1, {1})]
    tieup := []
    treadling := []
    liftplan := [(1, {1})]
    color_table := []
    warp := {}
    weft := {} }

/-- Complete liftplan draft whose threading cleans to empty (entries reduce
to the empty set or to the 0 sentinel). -/
def sampleEmptyThreading : PatternData :=
  { name := []
    threading := [(1, {0}), (2, ∅)]
    tieup := []
    treadling := []
    liftplan := [(1, {1})]
    color_table := [(1, (0, 0, 0))]
    warp := {}
    weft := {}
    color_range := some [0, 255] }

/-! ### Claim theorems: the normalization pass -/

/-- C2 (code bug exhibit): a successfully constructed Draft whose tieup
references shaft 7 and treadle 2, yet whose derived `num_shafts` and
`num_treadles` are both 1: `__post_init__` takes `max(len(shafts) for shafts
in tieup.values())` (a cardinality) and `len(self.tieup)` (an entry count)
instead of maxima of the referenced indices, so the claimed monotonic
derivation fails on the tieup. -/
theorem claimC2_loom_size_not_monotonic :
    postInit sampleTieupIndexRaw = .ok sampleTieupIndexNorm
    ∧ (7 : Int) ∈ ({7} : Finset Int)
    ∧ sampleTieupIndexNorm.num_shafts = 1
    ∧ sampleTieupIndexNorm.num_treadles = 1 := by
  refine ⟨by decide, by decide, rfl, rfl⟩

/-- C4: idempotent normalization — re-running `__post_init__` on the field
values of an already-normalized Draft succeeds and changes nothing. -/
theorem claimC4_idempotent_normalization (p d : PatternData)
    (h : postInit p = .ok d) : postInit d = .ok d :=
  postInit_idem h

/-- C4 witness: normalization of the spec Scenario A input, then re-run. -/
theorem claimC4_witness :
    postInit sampleLiftplanRaw = .ok sampleLiftplanNorm
    ∧ postInit sampleLiftplanNorm = .ok sampleLiftplanNorm :=
  ⟨by decide, claimC4_idempotent_normalization sampleLiftplanRaw sampleLiftplanNorm (by decide)⟩

/-- C5: in tieup+treadling mode, a treadling entry referencing a treadle
index beyond the derived `num_treadles` (the maximum of the tieup length and
the declared value) makes construction fail with the count-mismatch error,
rather than clamping or dropping the entry. -/
theorem claimC5_treadle_count_violation_fatal (p : PatternData) (mt : Int)
    (hp : (p.warp_colors = [] ∧ p.weft_colors = []) ∨ p.color_table ≠ [])
    (hth : cleanIntsSetDict p.threading ≠ [])
    (ht : cleanIntsSetDict p.tieup ≠ [])
    (hr : cleanIntsSetDict p.treadling ≠ [])
    (hmt : maxOfSetsE (dictValues (cleanIntsSetDict p.treadling)) = .ok mt)
    (hgt : max ((cleanIntsSetDict p.tieup).length : Int) p.num_treadles < mt) :
    postInit p = .error errCountMismatch := by
  unfold postInit derive
  rw [if_neg (by
    rintro ⟨hcol, hct⟩
    rcases hp with ⟨hw1, hw2⟩ | hne
    · rcases hcol with hc | hc
      · exact hc hw1
      · exact hc hw2
    · exact hne hct)]
  obtain ⟨mT, hmT⟩ := maxOfSetsE_clean_ok hth
  simp only [hmT, deriveBranch_count_error ht hr hmt hgt]
  rfl

/-- C5 witness: spec Scenario C — treadling references treadle 5, tieup
defines treadles 1 through 4. -/
theorem claimC5_witness :
    postInit sampleScenarioC = .error errCountMismatch :=
  claimC5_treadle_count_violation_fatal _ 5 (Or.inr (by decide)) (by decide)
    (by decide) (by decide) (by decide) (by decide)

/-- C8 (amended): the warp/weft-colors-without-color-table pairing check runs
before cleaning and before the structural check, so an input violating both
invariants reports the color-pairing error, not the structural error. -/
theorem claimC8_pairing_check_first (p : PatternData)
    (h1 : p.warp_colors ≠ [] ∨ p.weft_colors ≠ [])
    (h2 : p.color_table = []) : postInit p = .error errColorsNoTable := by
  unfold postInit derive
  rw [if_pos ⟨h1, h2⟩]
  rfl

/-- C8 counterexample: the spec example (non-empty warp colors, empty color
table, no liftplan/tieup/treadling) reports the color-pairing error, which is
not the structural error the claim predicts. -/
theorem claimC8_counterexample :
    postInit samplePairingAndStructural = .error errColorsNoTable
    ∧ errColorsNoTable ≠ errStructural :=
  ⟨by decide, by decide⟩

/-- C8 witness for the amended claim. -/
theorem claimC8_witness :
    postInit samplePairingOnly = .error errColorsNoTable :=
  claimC8_pairing_check_first _ (Or.inr (by decide)) rfl

/-- C9: construction never succeeds with an empty color table — any raw input
whose color table is empty fails (the per-axis color-bound step takes
`max(color_table.keys())` unconditionally), and every constructed Draft has a
non-empty color table. -/
theorem claimC9_empty_color_table_fails (p q d : PatternData)
    (h1 : p.color_table = []) (h2 : postInit q = .ok d) :
    (postInit p).isOk = false ∧ d.color_table ≠ [] := by
  constructor
  · cases hp : postInit p with
    | error e => rfl
    | ok dd =>
      exfalso
      unfold postInit at hp
      cases hd : derive p with
      | error e => rw [hd] at hp; cases hp
      | ok dv =>
        obtain ⟨-, -, -, -, -, e5, -, -, -, -, -, -, -, -, -, ⟨mC, hmC, -, -, -, -⟩⟩ :=
          derive_ok_inv hd
        apply listMaxE_ok_ne_nil hmC
        rw [e5, h1]
        rfl
  · unfold postInit at h2
    cases hd : derive q with
    | error e => rw [hd] at h2; cases h2
    | ok dv =>
      rw [hd] at h2
      simp only [Except.map] at h2
      cases h2
      obtain ⟨-, -, -, -, -, -, -, -, -, -, -, -, -, -, -, ⟨mC, hmC, -, -, -, -⟩⟩ :=
        derive_ok_inv hd
      show dv.color_table ≠ []
      intro hc
      apply listMaxE_ok_ne_nil hmC
      rw [hc]
      rfl

/-- C9 witness: an input that is structurally valid, has no colors and no
color range, yet fails purely because its color table is empty; and a
constructed draft with its non-empty table. -/
theorem claimC9_witness :
    (postInit sampleEmptyTable).isOk = false
    ∧ sampleLiftplanNorm.color_table ≠ [] :=
  claimC9_empty_color_table_fails sampleEmptyTable sampleLiftplanRaw sampleLiftplanNorm rfl (by decide)

/-- C10: construction never succeeds with an empty cleaned threading — the
preliminary `num_shafts` estimate takes `max` over threading values
unconditionally, so such inputs always raise, and every constructed Draft has
at least one threaded end. -/
theorem claimC10_empty_threading_fails (p q d : PatternData)
    (h1 : cleanIntsSetDict p.threading = []) (h2 : postInit q = .ok d) :
    (postInit p).isOk = false ∧ d.threading ≠ [] := by
  constructor
  · cases hp : postInit p with
    | error e => rfl
    | ok dd =>
      exfalso
      unfold postInit at hp
      cases hd : derive p with
      | error e => rw [hd] at hp; cases hp
      | ok dv =>
        obtain ⟨-, e1, -, -, -, -, -, -, -, -, -, -, -, ⟨mT, hmT, -⟩, -, -⟩ :=
          derive_ok_inv hd
        rw [e1, h1] at hmT
        cases hmT
  · unfold postInit at h2
    cases hd : derive q with
    | error e => rw [hd] at h2; cases h2
    | ok dv =>
      rw [hd] at h2
      simp only [Except.map] at h2
      cases h2
      obtain ⟨-, -, -, -, -, -, -, -, -, -, -, -, -, ⟨mT, hmT, -⟩, -, -⟩ :=
        derive_ok_inv hd
      show dv.threading ≠ []
      intro hc
      rw [hc] at hmT
      cases hmT

/-- C10 witness: a complete liftplan draft whose threading cleans to empty
still fails; and a constructed draft threads at least one end. -/
theorem claimC10_witness :
    (postInit sampleEmptyThreading).isOk = false
    ∧ sampleLiftplanNorm.threading ≠ [] :=
  claimC10_empty_threading_fails sampleEmptyThreading sampleLiftplanRaw sampleLiftplanNorm (by decide) (by decide)

/-! ### WPO binary reader: byte streams and the bitmask-sequence codec -/

/-- Remaining bytes of a binary input stream (each in 0..255). -/
abbrev ByteStream := List Nat

/-- Model of `read_bytes` (wpo_reader.py lines 169-185): read exactly
`numBytes` bytes or fail. -/
def read_bytes (f : ByteStream) (numBytes : Nat) :
    Except String (List Nat × ByteStream) :=
  if numBytes < 1 then .error "ValueError: num_bytes must be positive"
  else if f.length < numBytes then .error "EOFError: File too short"
  else .ok (f.take numBytes, f.drop numBytes)

/-- Python `int.from_bytes(data, byteorder="little")`. -/
def intFromBytesLE : List Nat → Nat
  | [] => 0
  | b :: bs => b + 256 * intFromBytesLE bs

/-- Python `int.from_bytes(data, byteorder="big")`. -/
def intFromBytesBE (bs : List Nat) : Nat := intFromBytesLE bs.reverse

/-- Model of `read_int` (wpo_reader.py lines 202-206). -/
def read_int (f : ByteStream) (numBytes : Nat) (bigEndian : Bool) :
    Except String (Nat × ByteStream) :=
  match read_bytes f numBytes with
  | .error e => .error e
  | .ok (data, rest) =>
    .ok (if bigEndian then intFromBytesBE data else intFromBytesLE data, rest)

/-- Helper for `maskBits`: structural recursion on a fuel bound so that the
definition evaluates inside the kernel. -/
def maskBitsGo : Nat → Nat → List Bool
  | _, 0 => []
  | 0, _ + 1 => []
  | fuel + 1, n + 1 => decide ((n + 1) % 2 = 1) :: maskBitsGo fuel ((n + 1) / 2)

/-- Bits of a mask, least significant first, as Python
`reversed(bin(mask)[2:])` enumerates them (with no bits at all for 0). -/
def maskBits (n : Nat) : List Bool := maskBitsGo n n

theorem maskBitsGo_congr : ∀ {f1 : Nat} {n f2 : Nat}, n ≤ f1 → n ≤ f2 →
    maskBitsGo f1 n = maskBitsGo f2 n := by
  intro f1
  induction f1 with
  | zero =>
    intro n f2 h1 _
    interval_cases n
    cases f2 <;> rfl
  | succ g1 ih =>
    intro n f2 h1 h2
    cases n with
    | zero => cases f2 <;> rfl
    | succ m =>
      cases f2 with
      | zero => omega
      | succ g2 =>
        show decide _ :: maskBitsGo g1 ((m + 1) / 2)
          = decide _ :: maskBitsGo g2 ((m + 1) / 2)
        congr 1
        exact @ih ((m + 1) / 2) g2 (by omega) (by omega)

theorem maskBits_unfold (n : Nat) :
    maskBits n = if n = 0 then [] else decide (n % 2 = 1) :: maskBits (n / 2) := by
  cases n with
  | zero => rfl
  | succ m =>
    rw [if_neg (by omega)]
    show decide _ :: maskBitsGo m ((m + 1) / 2) = _
    unfold maskBits
    rw [@maskBitsGo_congr m ((m + 1) / 2) ((m + 1) / 2) (by omega) (by omega)]

/-- Collect `{ i + 1 | bit i set }` from a bit list starting at index `k`. -/
def bitsToSet : List Bool → Nat → Finset Nat
  | [], _ => ∅
  | b :: bs, k => (if b then {k + 1} else ∅) ∪ bitsToSet bs (k + 1)

/-- Model of `mask_to_int_set` (wpo_reader.py lines 125-128). -/
def mask_to_int_set (mask : Nat) : Finset Nat :=
  bitsToSet (maskBits mask) 0

/-- Read `count` little-endian masks of `bytesPerMask` bytes each. -/
def readMasks (bytesPerMask : Nat) : Nat → ByteStream → Except String (List Nat × ByteStream)
  | 0, f => .ok ([], f)
  | n + 1, f =>
    match read_int f bytesPerMask false with
    | .error e => .error e
    | .ok (m, f1) =>
      match readMasks bytesPerMask n f1 with
      | .error e => .error e
      | .ok (ms, f2) => .ok (m :: ms, f2)

/-- Python `enumerate` with 1-based keys over decoded masks. -/
def enumSets (k : Nat) : List (Finset Nat) → List (Nat × Finset Nat)
  | [] => []
  | s :: ss => (k, s) :: enumSets (k + 1) ss

/-- Model of `read_bitmask_sequence` (wpo_reader.py lines 138-166): an
optional 2-byte big-endian mask count, then `count` masks of
`ceil(bits_per_mask/8)` little-endian bytes; mask `i` (1-based) decodes to
the set of 1-based indices of its high bits. -/
def read_bitmask_sequence (f : ByteStream) (bitsPerMask : Nat) (numMasks : Option Nat) :
    Except String (List (Nat × Finset Nat) × ByteStream) :=
  if bitsPerMask < 1 then .error "RuntimeError: bits_per_mask < 1"
  else
    let bytesPerMask := (bitsPerMask - 1) / 8 + 1
    match (match numMasks with
           | none => read_int f 2 true
           | some n => .ok (n, f)) with
    | .error e => .error e
    | .ok (n, f1) =>
      match readMasks bytesPerMask n f1 with
      | .error e => .error e
      | .ok (masks, f2) => .ok (enumSets 1 (masks.map mask_to_int_set), f2)

theorem mem_bitsToSet {bs : List Bool} {k j : Nat} :
    j ∈ bitsToSet bs k ↔ ∃ i, i < bs.length ∧ bs.getD i false = true ∧ j = k + i + 1 := by
  induction bs generalizing k with
  | nil => simp [bitsToSet]
  | cons b rest ih =>
    unfold bitsToSet
    rw [Finset.mem_union]
    constructor
    · intro h
      rcases h with h | h
      · by_cases hb : b = true
        · rw [if_pos hb] at h
          rw [Finset.mem_singleton] at h
          exact ⟨0, by simp, by simp [hb], by omega⟩
        · rw [if_neg hb] at h
          cases h
      · obtain ⟨i, hi, hbit, hj⟩ := ih.mp h
        exact ⟨i + 1, by simpa using hi, by simpa using hbit, by omega⟩
    · rintro ⟨i, hi, hbit, rfl⟩
      cases i with
      | zero =>
        left
        simp only [List.getD_cons_zero] at hbit
        rw [if_pos hbit, Finset.mem_singleton]
      | succ i' =>
        right
        exact ih.mpr ⟨i', by simpa using hi, by simpa using hbit, by omega⟩

theorem maskBits_getD (n i : Nat) : (maskBits n).getD i false = n.testBit i := by
  induction n using Nat.strong_induction_on generalizing i with
  | _ n ih =>
    rw [maskBits_unfold]
    by_cases hn : n = 0
    · subst hn
      simp [Nat.zero_testBit]
    · rw [if_neg hn]
      cases i with
      | zero =>
        rw [List.getD_cons_zero, Nat.testBit_zero]
      | succ i' =>
        rw [List.getD_cons_succ, Nat.testBit_add_one]
        exact ih (n / 2) (Nat.div_lt_self (Nat.pos_of_ne_zero hn) (by omega)) i'

theorem maskBits_length_le {n i : Nat} (h : (maskBits n).length ≤ i) :
    n.testBit i = false := by
  rw [← maskBits_getD]
  exact List.getD_eq_default _ _ h

/-- C6: bitmask decode correctness — membership in `mask_to_int_set` is
exactly the 1-based successor of a set bit, and the 1-byte mask `0b00001011`
with `bits_per_mask = 4` decodes to `{1, 2, 4}`. -/
theorem claimC6_bitmask_decode :
    (∀ mask j : Nat, j ∈ mask_to_int_set mask ↔ ∃ i, mask.testBit i ∧ j = i + 1)
    ∧ read_bitmask_sequence [11] 4 (some 1)
      = .ok ([(1, ({1, 2, 4} : Finset Nat))], []) := by
  constructor
  · intro mask j
    unfold mask_to_int_set
    rw [mem_bitsToSet]
    constructor
    · rintro ⟨i, hi, hbit, rfl⟩
      rw [maskBits_getD] at hbit
      exact ⟨i, hbit, by omega⟩
    · rintro ⟨i, hbit, rfl⟩
      by_cases hlen : i < (maskBits mask).length
      · exact ⟨i, hlen, by rw [maskBits_getD]; exact hbit, by omega⟩
      · rw [maskBits_length_le (by omega)] at hbit
        cases hbit
  · decide

/-! ### Python string primitives -/

/-- Python `str.isspace` members used by `strip`/`split`. -/
def pyIsSpace (c : Char) : Bool :=
  c = ' ' || c = '\t' || c = '\n' || c = '\r' || c = '\x0b' || c = '\x0c'

/-- Python `str.strip()`. -/
def pyStrip (s : PyStr) : PyStr :=
  ((s.dropWhile pyIsSpace).reverse.dropWhile pyIsSpace).reverse

/-- Python `str.split()` with no argument: split on whitespace runs,
dropping empty pieces. -/
def pySplitWS (s : PyStr) : List PyStr :=
  let step : Char → List PyStr × PyStr → List PyStr × PyStr := fun c acc =>
    if pyIsSpace c then
      match acc with
      | (ws, []) => (ws, [])
      | (ws, cur) => (cur :: ws, [])
    else (acc.1, c :: acc.2)
  match s.foldr step ([], []) with
  | (ws, []) => ws
  | (ws, cur) => cur :: ws

/-- Accumulate decimal digits, failing on a non-digit. -/
def parseDigitsAux : PyStr → Nat → Option Nat
  | [], acc => some acc
  | c :: cs, acc =>
    if '0' ≤ c ∧ c ≤ '9' then parseDigitsAux cs (acc * 10 + (c.toNat - 48))
    else none

/-- Python `int(s)`: strip whitespace, optional sign, at least one digit. -/
def pyParseInt (s : PyStr) : Option Int :=
  match pyStrip s with
  | [] => none
  | '+' :: rest =>
    match rest with
    | [] => none
    | _ => (parseDigitsAux rest 0).map Int.ofNat
  | '-' :: rest =>
    match rest with
    | [] => none
    | _ => (parseDigitsAux rest 0).map (fun n => -(n : Int))
  | t => (parseDigitsAux t 0).map Int.ofNat

/-- Python `int(s)` raising `ValueError` on failure. -/
def parseIntE (s : PyStr) : Except String Int :=
  match pyParseInt s with
  | some n => .ok n
  | none => .error "ValueError: invalid literal for int()"

/-! ### DTX decoder: sections and the default-color rule -/

/-- Model of `SectionData` from dtx_reader.py. -/
structure SectionData where
  metadata : List (PyStr × Option PyStr) := []
  data : List PyStr := []
deriving DecidableEq

/-- First value associated with a key in an association list keyed by
strings (Python dict lookup). -/
def lookupStr {V : Type} (l : List (PyStr × V)) (k : PyStr) : Option V :=
  (l.find? (fun p => p.1 = k)).map (·.2)

/-- First value associated with an integer key (Python dict lookup). -/
def dictLookup {V : Type} (d : Dict V) (k : Int) : Option V :=
  (d.find? (fun p => p.1 = k)).map (·.2)

/-- Model of `process_int_list` (dtx_reader.py lines 132-142): join the
section's data lines with spaces and parse the whitespace-separated ints. -/
def process_int_list (s : SectionData) : Except String (List Int) :=
  mapExcept parseIntE (pySplitWS (List.intercalate [' '] s.data))

/-- Keys `k, k+1, ...` over color values, each value shifted from the
0-based on-disk form to the 1-based model form. -/
def enumColorVals (k : Int) : List Int → Dict Int
  | [] => []
  | v :: vs => (k, v + 1) :: enumColorVals (k + 1) vs

/-- Model of `process_warpweft_colors` (dtx_reader.py lines 170-179). -/
def process_warpweft_colors (s : SectionData) : Except String (Dict Int) :=
  match process_int_list s with
  | .error e => .error e
  | .ok vals => .ok (enumColorVals 1 vals)

/-- Section names registered in the DTX `section_dispatcher`
(dtx_reader.py lines 288-298).  The decoder loop at lines 70-75 assigns an
entry in `argdict` for every one of these names, whether or not the section
is present in the file, so `argdict` always contains the key
`color_table`. -/
def dtxSectionNames : List PyStr :=
  ["threading".toList, "tieup".toList, "treadling".toList, "liftplan".toList,
    "color_table".toList, "warp_colors".toList, "weft_colors".toList,
    "warp_spacing".toList, "weft_spacing".toList]

/-- The parsed per-thread colors that `read_dtx` line 78 finds in `argdict`
for one axis: the processed section when present, else the empty dict. -/
def dtxWwColors (sections : List (PyStr × SectionData)) (wwName : PyStr) :
    Except String (Dict Int) :=
  match lookupStr sections (wwName ++ ('_' :: "colors".toList)) with
  | some sd => process_warpweft_colors sd
  | none => .ok []

/-- Model of the default-color selection of `read_dtx`
(dtx_reader.py lines 77-84): an explicit per-thread color list contributes
its entry 1; otherwise, when `argdict` has a `color_table` key (it always
does), warp defaults to 1 and weft to 2; otherwise no default. -/
def dtxDefaultColor (sections : List (PyStr × SectionData)) (wwName : PyStr) :
    Except String (Option Int) :=
  match dtxWwColors sections wwName with
  | .error e => .error e
  | .ok ww_colors =>
    if ww_colors ≠ [] then
      match dictLookup ww_colors 1 with
      | some c => .ok (some c)
      | none => .error "KeyError: 1"
    else if ("color_table".toList) ∈ dtxSectionNames then
      .ok (some (if wwName = "warp".toList then 1 else 2))
    else
      .ok none

/-- Sample DTX section map with an explicit warp colors section holding the
0-based color indices 0 and 1. -/
def sampleDtxSections : List (PyStr × SectionData) :=
  [("warp_colors".toList, { data := ["0 1".toList] })]

/-- C7 counterexample: with no sections at all — hence no color table
section and no per-thread colors — the decoder still defaults the warp color
to table index 1, not to the unset value the claim predicts. -/
theorem claimC7_counterexample :
    dtxDefaultColor [] ("warp".toList) = .ok (some 1)
    ∧ lookupStr ([] : List (PyStr × SectionData)) ("color_table".toList) = none
    ∧ dtxWwColors [] ("warp".toList) = .ok [] :=
  ⟨by decide, rfl, rfl⟩

/-- C7 (amended): the DTX default color of an axis is the entry with key 1
of the explicit per-thread color list when that list is non-empty, and
otherwise table index 1 for warp and 2 for weft; it is never left unset,
because the decoder's section dictionary always contains a `color_table`
key (empty or not), making the no-color-table branch unreachable. -/
theorem claimC7_default_color (sections : List (PyStr × SectionData)) (ww : PyStr)
    (r : Option Int) (cols : Dict Int)
    (hcols : dtxWwColors sections ww = .ok cols)
    (h : dtxDefaultColor sections ww = .ok r) :
    r ≠ none
    ∧ (cols ≠ [] → r = dictLookup cols 1)
    ∧ (cols = [] → r = some (if ww = "warp".toList then 1 else 2)) := by
  unfold dtxDefaultColor at h
  rw [hcols] at h
  simp only [] at h
  by_cases hc : cols = []
  · rw [if_neg (by simp [hc])] at h
    rw [if_pos (show ("color_table".toList : PyStr) ∈ dtxSectionNames by decide)] at h
    cases h
    refine ⟨by simp, fun hne => absurd hc hne, fun _ => rfl⟩
  · rw [if_pos hc] at h
    cases hlk : dictLookup cols 1 with
    | none => rw [hlk] at h; cases h
    | some c =>
      rw [hlk] at h
      cases h
      exact ⟨by simp, fun _ => rfl, fun he => absurd he hc⟩

/-- C7 witness: a DTX file with an explicit warp colors section `0 1` gets
warp default color 1 (the first entry, key 1, after the 0-based to 1-based
shift). -/
theorem claimC7_witness :
    (some (1 : Int)) ≠ none
    ∧ (([(1, 1), (2, 2)] : Dict Int) ≠ [] →
        some (1 : Int) = dictLookup [(1, 1), (2, 2)] 1)
    ∧ (([(1, 1), (2, 2)] : Dict Int) = [] →
        some (1 : Int) = some (if ("warp".toList : PyStr) = "warp".toList then 1 else 2)) :=
  claimC7_default_color sampleDtxSections ("warp".toList) (some 1) [(1, 1), (2, 2)]
    (by decide) (by decide)

/-! ### Rendering primitives used by the WIF writer -/

/-- Decimal digit character. -/
def digitChar (d : Nat) : Char := Char.ofNat (48 + d)

/-- Helper for `renderNat`: structural recursion on a fuel bound so that the
definition evaluates inside the kernel. -/
def renderNatGo : Nat → Nat → PyStr
  | 0, _ => []
  | fuel + 1, n =>
    if n < 10 then [digitChar n]
    else renderNatGo fuel (n / 10) ++ [digitChar (n % 10)]

/-- Python `str(n)` for a non-negative int. -/
def renderNat (n : Nat) : PyStr := renderNatGo (n + 1) n

theorem renderNatGo_congr : ∀ {f1 : Nat} {n f2 : Nat}, n < f1 → n < f2 →
    renderNatGo f1 n = renderNatGo f2 n := by
  intro f1
  induction f1 with
  | zero => omega
  | succ g1 ih =>
    intro n f2 h1 h2
    cases f2 with
    | zero => omega
    | succ g2 =>
      show (if n < 10 then _ else _) = (if n < 10 then _ else _)
      by_cases hn : n < 10
      · rw [if_pos hn, if_pos hn]
      · rw [if_neg hn, if_neg hn]
        congr 1
        exact @ih (n / 10) g2 (by omega) (by omega)

theorem renderNat_unfold (n : Nat) :
    renderNat n = if n < 10 then [digitChar n]
      else renderNat (n / 10) ++ [digitChar (n % 10)] := by
  show (if n < 10 then _ else renderNatGo n (n / 10) ++ _) = _
  by_cases hn : n < 10
  · rw [if_pos hn, if_pos hn]
  · rw [if_neg hn, if_neg hn]
    unfold renderNat
    rw [@renderNatGo_congr n (n / 10) (n / 10 + 1) (by omega) (by omega)]

/-- Python `str(n)` for an int. -/
def renderInt : Int → PyStr
  | .ofNat n => renderNat n
  | .negSucc m => '-' :: renderNat (m + 1)

/-- Round `1000 * q` to the nearest integer, ties to even, as CPython rounds
a binary float to three decimals (an exact tie rounds to even; any other
float rounds to nearest).  Implemented on the numerator and denominator so
that it evaluates inside the kernel. -/
def roundThousandths (q : Rat) : Int :=
  let n := 1000 * q.num
  let d := (q.den : Int)
  let f := Int.fdiv n d
  let r2 := 2 * (n - f * d)
  if r2 < d then f
  else if d < r2 then f + 1
  else if f % 2 = 0 then f else f + 1

/-- Three-digit zero-padded decimal. -/
def pad3 (m : Nat) : PyStr :=
  [digitChar (m / 100), digitChar (m / 10 % 10), digitChar (m % 10)]

/-- Python `f"{q:0.3f}"` on the rational model of a float.  (For rationals
in (-1/2000, 0) Python would print a negative zero `-0.000`; the model
prints `0.000`.  The claims only use this formatting on values for which the
two agree.) -/
def renderFix3 (q : Rat) : PyStr :=
  let n := roundThousandths q
  (if n < 0 then ['-'] else [])
    ++ renderNat (n.natAbs / 1000) ++ '.' :: pad3 (n.natAbs % 1000)

/-- Python `",".join(strs)`. -/
def joinComma : List PyStr → PyStr
  | [] => []
  | [s] => s
  | s :: t :: rest => s ++ ',' :: joinComma (t :: rest)

/-- Python `str((a, b, c))` for an int 3-tuple: `"(a, b, c)"`. -/
def pyStrTuple3 (t : Int × Int × Int) : PyStr :=
  '(' :: (renderInt t.1 ++ ',' :: ' ' :: renderInt t.2.1
    ++ ',' :: ' ' :: renderInt t.2.2 ++ [')'])

/-! ### WIF writer -/

/-- Shorthand for string literals as character lists. -/
def lit (s : String) : PyStr := s.toList

/-- Lines of one `[WARP]`/`[WEFT]` block (wif_writer.py lines 104-123).
When `color_rgb` is present the source appends the tuple itself to the value
list, so the line renders as `Color=index,(r, g, b)`. -/
def wifWarpWeftLines (nameUpper : PyStr) (ww : WarpWeftData) : List PyStr :=
  [[], '[' :: (nameUpper ++ [']']), lit "Threads=" ++ renderInt ww.threads]
  ++ (match ww.color with
    | none => []
    | some c =>
      [lit "Color=" ++ joinComma ([renderInt c] ++ (match ww.color_rgb with
        | some t => [pyStrTuple3 t]
        | none => []))])
  ++ (match ww.spacing with
    | none => []
    | some sp => [lit "Spacing=" ++ renderFix3 sp])
  ++ (match ww.thickness with
    | none => []
    | some th => [lit "Thickness=" ++ renderFix3 th])
  ++ (match ww.units with
    | none => []
    | some u => [lit "Units=" ++ u])

theorem renderNat_digits : ∀ {n : Nat} {c : Char}, c ∈ renderNat n →
    48 ≤ c.toNat ∧ c.toNat ≤ 57 := by
  intro n
  induction n using Nat.strong_induction_on with
  | _ n ih =>
    intro c hc
    rw [renderNat_unfold] at hc
    by_cases hn : n < 10
    · rw [if_pos hn] at hc
      rcases List.mem_singleton.mp hc with rfl
      unfold digitChar
      interval_cases n <;> simp
    · rw [if_neg hn] at hc
      rcases List.mem_append.mp hc with h | h
      · exact ih (n / 10) (by omega) h
      · rcases List.mem_singleton.mp h with rfl
        have h10 : n % 10 < 10 := Nat.mod_lt _ (by omega)
        unfold digitChar
        interval_cases hm : n % 10 <;> simp_all

theorem renderInt_chars {i : Int} {c : Char} (h : c ∈ renderInt i) :
    (48 ≤ c.toNat ∧ c.toNat ≤ 57) ∨ c = '-' := by
  cases i with
  | ofNat n => exact Or.inl (renderNat_digits h)
  | negSucc m =>
    rcases List.mem_cons.mp h with rfl | h'
    · exact Or.inr rfl
    · exact Or.inl (renderNat_digits h')

theorem mem_joinComma : ∀ {l : List PyStr} {c : Char}, c ∈ joinComma l →
    c = ',' ∨ ∃ s ∈ l, c ∈ s := by
  intro l
  induction l with
  | nil => intro c hc; cases hc
  | cons s rest ih =>
    intro c hc
    cases rest with
    | nil =>
      exact Or.inr ⟨s, List.mem_cons_self _ _, hc⟩
    | cons t rest' =>
      unfold joinComma at hc
      rcases List.mem_append.mp hc with h | h
      · exact Or.inr ⟨s, List.mem_cons_self _ _, h⟩
      · rcases List.mem_cons.mp h with rfl | h'
        · exact Or.inl rfl
        · rcases ih h' with h'' | ⟨u, hu, hcu⟩
          · exact Or.inl h''
          · exact Or.inr ⟨u, List.mem_cons_of_mem _ hu, hcu⟩

/-- C3 (code bug exhibit): with both a color index and a literal RGB set,
the writer emits `Color=1,(2, 3, 4)` — the Python tuple is appended to the
value list instead of extended into it — which is not 4 comma-joined integer
values; with no RGB it correctly emits the single value. -/
theorem claimC3_color_line_not_four_ints :
    wifWarpWeftLines (lit "WARP")
      { threads := 4, color := some 1, color_rgb := some (2, 3, 4) }
    = [[], lit "[WARP]", lit "Threads=4", lit "Color=1,(2, 3, 4)"]
    ∧ (∀ a b c d : Int,
        lit "1,(2, 3, 4)" ≠ joinComma [renderInt a, renderInt b, renderInt c, renderInt d])
    ∧ wifWarpWeftLines (lit "WARP") { threads := 4, color := some 1 }
      = [[], lit "[WARP]", lit "Threads=4", lit "Color=1"] := by
  refine ⟨by decide, ?_, by decide⟩
  intro a b c d heq
  have hc : '(' ∈ joinComma [renderInt a, renderInt b, renderInt c, renderInt d] := by
    rw [← heq]
    decide
  rcases mem_joinComma hc with h | ⟨s, hs, hcs⟩
  · exact absurd h (by decide)
  · have hps : s = renderInt a ∨ s = renderInt b ∨ s = renderInt c ∨ s = renderInt d := by
      simpa using hs
    have hchar : (48 ≤ ('(' : Char).toNat ∧ ('(' : Char).toNat ≤ 57) ∨ ('(' : Char) = '-' →
        False := by decide
    rcases hps with rfl | rfl | rfl | rfl <;>
      rcases renderInt_chars hcs with ⟨h1, h2⟩ | h3 <;>
        first
        | (revert h1 h2; decide)
        | (exact absurd h3 (by decide))

/-! ### More Python string primitives (WIF reader) -/

/-- Python `str.lower()` for ASCII. -/
def pyLower (s : PyStr) : PyStr :=
  s.map (fun c => if 'A' ≤ c ∧ c ≤ 'Z' then Char.ofNat (c.toNat + 32) else c)

/-- Python `s.split(sep)` for a one-character separator: keeps empty
pieces, and yields `[""]` on the empty string. -/
def pySplitChar (sep : Char) : PyStr → List PyStr
  | [] => [[]]
  | c :: cs =>
    let r := pySplitChar sep cs
    if c = sep then [] :: r
    else
      match r with
      | [] => [[c]]
      | p :: ps => (c :: p) :: ps

/-- Parsed INI content: sections in file order, each with its options in
file order. -/
abbrev Config := List (PyStr × List (PyStr × PyStr))

/-- Parser state: finished sections and the currently open section. -/
structure CfgSt where
  done : Config
  cur : Option (PyStr × List (PyStr × PyStr))
deriving DecidableEq

/-- Close the open section, if any. -/
def flushCfg (st : CfgSt) : Config :=
  st.done ++ (match st.cur with
    | none => []
    | some sec => [sec])

/-- Section header of a stripped line, as `ConfigParser.SECTCRE` matches it:
an opening bracket, one or more non-bracket characters, a closing bracket
(text after the closing bracket is ignored by the regex match). -/
def sectionHeader? (t : PyStr) : Option PyStr :=
  match t with
  | '[' :: rest =>
    let name := rest.takeWhile (fun c => c ≠ ']')
    if name ≠ [] ∧ ']' ∈ rest then some name else none
  | _ => none

/-- Key/value split of a stripped line at the first `=` or `:` delimiter. -/
def splitKV (t : PyStr) : Option (PyStr × PyStr) :=
  let key := t.takeWhile (fun c => c ≠ '=' ∧ c ≠ ':')
  match t.dropWhile (fun c => c ≠ '=' ∧ c ≠ ':') with
  | [] => none
  | _ :: rest => some (key, rest)

/-- Process one line of INI input. -/
def parseCfgLine (st : CfgSt) (line : PyStr) : Except String CfgSt :=
  let t := pyStrip line
  if t = [] then .ok st
  else if t.head? = some '#' ∨ t.head? = some ';' then .ok st
  else
    match sectionHeader? t with
    | some name =>
      if (flushCfg st).any (fun sec => sec.1 = name) then
        .error "DuplicateSectionError"
      else
        .ok { done := flushCfg st, cur := some (name, []) }
    | none =>
      match splitKV t with
      | none => .error "ParsingError"
      | some (k, v) =>
        match st.cur with
        | none => .error "MissingSectionHeaderError"
        | some (secName, items) =>
          let key := pyLower (pyStrip k)
          if items.any (fun it => it.1 = key) then
            .error "DuplicateOptionError"
          else
            .ok { done := st.done, cur := some (secName, items ++ [(key, pyStrip v)]) }

theorem parseCfgLine_blank (st : CfgSt) : parseCfgLine st [] = .ok st := rfl

theorem lookupStr_cons {V : Type} (n : PyStr) (v : V) (l : List (PyStr × V)) (k : PyStr) :
    lookupStr ((n, v) :: l) k = if n = k then some v else lookupStr l k := by
  unfold lookupStr
  by_cases h : n = k
  · rw [List.find?_cons_of_pos _ (by simpa using h), if_pos h]
    rfl
  · rw [List.find?_cons_of_neg _ (by simpa using h), if_neg h]

theorem pySplitChar_ne_nil (sep : Char) (s : PyStr) : pySplitChar sep s ≠ [] := by
  cases s with
  | nil => simp [pySplitChar]
  | cons c cs =>
    unfold pySplitChar
    by_cases hc : c = sep
    · rw [if_pos hc]
      simp
    · rw [if_neg hc]
      cases pySplitChar sep cs with
      | nil => simp
      | cons p ps => simp

theorem lookupStr_all_ne {V : Type} {l : List (PyStr × V)} {k : PyStr}
    (h : ∀ p ∈ l, p.1 ≠ k) : lookupStr l k = none := by
  induction l with
  | nil => rfl
  | cons p ps ih =>
    rcases p with ⟨n, v⟩
    rw [lookupStr_cons, if_neg (h (n, v) (List.mem_cons_self _ _))]
    exact ih (fun q hq => h q (List.mem_cons_of_mem _ hq))

